import Mathlib

/-!
Verification of the video-pitch pipeline (FerrariEdTechVendorPortal).

This file gives a shallow embedding of the repository's three Python
source files and proves, or refutes, the frozen claims about them:

* `src/video-pitch/engine/lausd_v1.2_sarah_v5/build_video.py`
  (`build_voiceover`, `generate_timing_js`),
* `src/video-pitch/engine/videopitch.py`
  (`ScriptValidator.analyze`, `AudioGenerator.get_voice`,
  `VideoPitchEngine.parse_script`, `generate_timing`, `generate_manifest`).

Conventions of the embedding:

* Python floats are modelled as exact rationals (`ℚ`); every arithmetic
  identity proved or refuted below is an identity of the real-number
  algorithm the code implements.
* Python `int(x)` (truncation toward zero) is `pyInt`; JavaScript
  `Math.round` is `⌊x + 1/2⌋`, i.e. Mathlib's `round`; Python's
  `"%.2f"`-formatting rounds half-to-even at two decimals (`fmt2`).
* Fallible code returns `Except PyErr`; the constructors of `PyErr`
  cover the exceptions the code can actually raise plus the error names
  the specification document postulates, so that statements about the
  identity of a raised error are expressible.
* File-system effects are modelled by threading a duplicate-free list of
  existing file names through the operations.
-/

/-- Model of Python `int(x)` applied to a float: truncation toward zero. -/
def pyInt (q : ℚ) : ℤ := if q < 0 then ⌈q⌉ else ⌊q⌋

/-- Round a rational to the nearest integer, ties to the even integer.
This is the rounding performed by Python float formatting (`"%.2f"` etc.). -/
def rhe (q : ℚ) : ℤ :=
  if q - ⌊q⌋ < 1/2 then ⌊q⌋
  else if q - ⌊q⌋ > 1/2 then ⌊q⌋ + 1
  else if Even ⌊q⌋ then ⌊q⌋ else ⌊q⌋ + 1

/-- Model of Python `f"{x:.2f}"` read back as a number: the value rounded
half-to-even at two decimal places.  `build_video.py` serializes every
timeline second-value through this format before the generated JavaScript
ever computes with it. -/
def fmt2 (q : ℚ) : ℚ := (rhe (q * 100) : ℚ) / 100

/-- Exceptions the embedded code can raise, together with the error names
the specification document postulates (`EmptyInputError`,
`MissingDurationError`, `DuplicateSceneIdError`); the latter are present so
that claims about which error is raised can be stated and settled.  The
embedded functions only ever return the constructors corresponding to
exceptions the Python source actually raises. -/
inductive PyErr where
  | fileNotFound (msg : String)
  | typeErr
  | zeroDivisionError
  | emptyInputError
  | missingDurationError
  | duplicateSceneIdError
deriving Repr, DecidableEq

/-! ## `build_video.py`: configuration and the voiceover builder -/

/-- One entry of the `scenes` list of `scenes.yaml`:
`{id, file, component, fadeIn?, fadeOut?}`.  The fade flags are optional
in the YAML; `build_voiceover` reads them with `scene.get("fadeIn", True)`. -/
structure SceneCfg where
  id : String
  file : String
  component : String
  fadeIn : Option Bool := none
  fadeOut : Option Bool := none
deriving Repr, DecidableEq

/-- The `meta` block of `scenes.yaml`. -/
structure Meta where
  sample_rate : ℕ
  fps : ℤ
  fade_frames : ℤ
  scene_gap_seconds : ℚ
  volume_boost_db : ℚ
  version : String
deriving Repr, DecidableEq

/-- The configuration document loaded from `scenes.yaml`. -/
structure Config where
  meta : Meta
  scenes : List SceneCfg
  frozen_assets : List String := []
deriving Repr, DecidableEq

/-- One element of the `scene_timings` list produced by `build_voiceover`:
`{id, component, start, end, duration, fadeIn, fadeOut}`. -/
structure Timing where
  id : String
  component : String
  start : ℚ
  endS : ℚ
  duration : ℚ
  fadeIn : Bool
  fadeOut : Bool
deriving Repr, DecidableEq

/-- The file system is a duplicate-free list of existing file names. -/
abbrev FS := List String

/-- Creating a file (`ffmpeg` output, `open(..., "w")`): afterwards the
name exists; creating an already-existing file truncates it in place. -/
def FS.create (fs : FS) (name : String) : FS := List.insert name fs

/-- `Path.unlink()`: the name no longer exists. -/
def FS.remove (fs : FS) (name : String) : FS := List.erase fs name

/-- Intermediate working file: the concat list written by `build_voiceover`. -/
def concatListName : String := "concat_build.txt"

/-- Intermediate working file: the generated silence gap clip. -/
def silenceName : String := "silence_gap.wav"

/-- Intermediate working file: the lossless concatenated WAV. -/
def tempWavName : String := "temp_concat.wav"

/-- Name of the final output artifact, `full_voiceover_{version}.mp3`. -/
def mp3Name (version : String) : String := "full_voiceover_" ++ version ++ ".mp3"

/-- The per-scene loop of `build_voiceover` (lines 82–111): check that the
scene's WAV exists, measure its duration, record the timing entry, and
advance the cursor by `duration + gap` for every scene except the last,
where it advances by `duration` alone.  `dur` models
`get_wav_duration` (an `ffprobe` call) for the files that exist. -/
def buildLoop (dur : String → ℚ) (fs : FS) (gap : ℚ) :
    List SceneCfg → ℚ → Except PyErr (List Timing × ℚ)
  | [], t => .ok ([], t)
  | s :: rest, t =>
    if s.file ∈ fs then
      let d := dur s.file
      let timing : Timing :=
        { id := s.id, component := s.component,
          start := t, endS := t + d, duration := d,
          fadeIn := s.fadeIn.getD true, fadeOut := s.fadeOut.getD true }
      let t' := if rest.isEmpty then t + d else t + d + gap
      (buildLoop dur fs gap rest t').map fun p => (timing :: p.1, p.2)
    else
      .error (.fileNotFound s.file)

/-- Model of `build_voiceover(config)` (lines 54–138).  Returns the result
the Python function returns (`(output_path, total_duration, scene_timings)`)
or the exception it raises, paired with the file-system state at exit.
The silence clip and the concat list are created before the loop runs; the
lossless intermediate and the MP3 are created after it; the three
intermediates are unlinked only on the success path (the source has no
`try`/`finally`). -/
def buildVoiceover (config : Config) (dur : String → ℚ) (fs : FS) :
    Except PyErr (String × ℚ × List Timing) × FS :=
  let gap := config.meta.scene_gap_seconds
  let fs1 := fs.create silenceName
  let fs2 := fs1.create concatListName
  match buildLoop dur fs2 gap config.scenes 0 with
  | .error e => (.error e, fs2)
  | .ok (timings, total) =>
    let fs3 := fs2.create tempWavName
    let fs4 := fs3.create (mp3Name config.meta.version)
    let fs5 := ((fs4.remove concatListName).remove silenceName).remove tempWavName
    (.ok (mp3Name config.meta.version, total, timings), fs5)

/-! ## `build_video.py`: `generate_timing_js` -/

/-- The numeric content of one `SCENES` entry emitted into `TIMING.js`. -/
structure JsScene where
  id : String
  startFrame : ℤ
  durationFrames : ℤ
deriving Repr, DecidableEq

/-- Model of `generate_timing_js` (lines 140–190) restricted to the numbers
the generated JavaScript evaluates to.  The source prints
`Math.round({start:.2f} * {fps})` and
`Math.round(({end:.2f} - {start:.2f}) * {fps})` followed by
`+ FADE_FRAMES` exactly when the scene's `fadeOut` flag is set, so every
second-value passes through two-decimal formatting (`fmt2`) before the
rounding happens. -/
def generateTimingJs (timings : List Timing) (fps : ℤ) (fadeFrames : ℤ) :
    List JsScene :=
  timings.map fun s =>
    { id := s.id,
      startFrame := round (fmt2 s.start * (fps : ℚ)),
      durationFrames := round ((fmt2 s.endS - fmt2 s.start) * (fps : ℚ)) +
        (if s.fadeOut then fadeFrames else 0) }

/-- The `durationInFrames` value `generate_timing_js` prints for `Root.tsx`:
`Math.round({total_duration:.2f} * {fps})`. -/
def jsTotalFrames (totalDuration : ℚ) (fps : ℤ) : ℤ :=
  round (fmt2 totalDuration * (fps : ℚ))

/-! ## `videopitch.py`: `VideoPitchEngine.generate_timing` -/

/-- The fields of `videopitch.Scene` used by the claims: `ipa` is the
optional derived phonetic form, and `duration` is `None` until audio has
been generated (`voice`, `speed` and `workarounds` are carried by the
Python dataclass but never read by the functions under verification). -/
structure Scene where
  id : String
  text : String := ""
  ipa : Option String := none
  duration : Option ℚ := none
deriving Repr, DecidableEq

/-- One element of `timing["scenes"]` in `generate_timing`. -/
structure TEntry where
  id : String
  startFrame : ℤ
  durationFrames : ℤ
  durationSeconds : ℚ
deriving Repr, DecidableEq

/-- The timing dictionary `generate_timing` returns. -/
structure TimingOut where
  fps : ℤ
  gapSeconds : ℚ
  scenes : List TEntry
  totalDuration : ℚ
deriving Repr, DecidableEq

/-- The scene loop of `generate_timing` (lines 449–461):
`duration_frames = int(scene.duration * fps)` raises `TypeError` when
`scene.duration` is `None` (`None * fps` is unsupported in Python); the
frame cursor advances by `duration_frames + gap_frames` for every scene,
including the last. -/
def timingLoop (fps : ℤ) (gap : ℚ) :
    List Scene → ℤ → Except PyErr (List TEntry × ℤ)
  | [], cur => .ok ([], cur)
  | s :: rest, cur =>
    match s.duration with
    | none => .error .typeErr
    | some d =>
      let df := pyInt (d * (fps : ℚ))
      let gf := pyInt (gap * (fps : ℚ))
      (timingLoop fps gap rest (cur + df + gf)).map fun p =>
        ({ id := s.id, startFrame := cur, durationFrames := df,
           durationSeconds := d } :: p.1, p.2)

/-- Model of `VideoPitchEngine.generate_timing` (lines 440–472): after the
loop, the trailing gap is removed and the total is
`(current_frame - int(gap_seconds * fps)) / fps`, which raises
`ZeroDivisionError` when `fps = 0`.  No error is raised for an empty scene
list and no per-scene fade allowance exists in this function. -/
def generateTiming (scenes : List Scene) (fps : ℤ) (gap : ℚ) :
    Except PyErr TimingOut :=
  match timingLoop fps gap scenes 0 with
  | .error e => .error e
  | .ok (entries, cur) =>
    if fps = 0 then .error .zeroDivisionError
    else
      .ok { fps := fps, gapSeconds := gap, scenes := entries,
            totalDuration := ((cur - pyInt (gap * (fps : ℚ)) : ℤ) : ℚ) / (fps : ℚ) }

/-! ## `videopitch.py`: `ScriptValidator` -/

/-- One reported issue (`ScriptIssue` dataclass). -/
structure ScriptIssue where
  issue_type : String
  found : String
  suggestion : String
  action : String
  ipa_correct : Option String := none
  ipa_wrong : Option String := none
deriving Repr, DecidableEq

/-- The `ACRONYMS` table, in source (insertion) order:
`acronym ↦ (ipa, suggestion)`. -/
def ACRONYMS : List (String × String × String) :=
  [("LAUSD", "lˈɔːzd", "Pronounce as 'LAWZD'"),
   ("SFUSD", "ɛs ɛf juː ɛs dˈiː", "Spell out 'S.F.U.S.D.'"),
   ("NYCDOE", "ɛn waɪ siː diː oʊ ˈiː", "Spell out"),
   ("SSO", "ɛs ɛs ˈoʊ", "Spell out 'S.S.O.'"),
   ("LTI", "ɛl tiː ˈaɪ", "Spell out 'L.T.I.'"),
   ("SAML", "sˈæməl", "Pronounce as 'SAM-ul'"),
   ("FERPA", "fˈɜːpə", "Pronounce as 'FUR-pah'"),
   ("COPPA", "kˈɑːpə", "Pronounce as 'COP-ah'"),
   ("API", "ˌeɪ piː ˈaɪ", "Spell out 'A.P.I.'"),
   ("PII", "piː aɪ ˈaɪ", "Spell out 'P.I.I.'")]

/-- The `COMPOUNDS` table, in source order: `compound ↦ (replacement, ipa)`. -/
def COMPOUNDS : List (String × String × String) :=
  [("data breach", "databreach", "dˈeɪɾəbɹˌiːtʃ"),
   ("on boarding", "onboarding", "ˈɑːnbˌɔːɹdɪŋ"),
   ("sign on", "signon", "sˈaɪnˌɑːn")]

/-- The `BRANDS` table, in source order: `brand ↦ ipa`. -/
def BRANDS : List (String × String) :=
  [("PowerSchool", "pˈaʊɚ skˈuːl"),
   ("SchoolDay", "skˈuːl dˈeɪ"),
   ("Clever", "klˈɛvɚ"),
   ("OneRoster", "wˈʌn ɹˈɑːstɚ"),
   ("Ed-Fi", "ˈɛdfˌaɪ"),
   ("OpenID", "ˈoʊpən aɪdˈiː")]

/-- Python's `needle in haystack` substring test. -/
def containsSub (haystack needle : List Char) : Bool :=
  (List.range (haystack.length + 1)).any fun i =>
    needle.isPrefixOf (haystack.drop i)

/-- Python `str.lower()` (on the ASCII range the inputs use). -/
def lowerStr (l : List Char) : List Char := l.map Char.toLower

/-- The whitespace class of Python's `\s` regex class and `str.strip()`
(ASCII range). -/
def pyIsSpace (c : Char) : Bool :=
  c == ' ' || c == '\t' || c == '\n' || c == '\r' || c == '\x0b' || c == '\x0c'

/-- Length of the maximal digit run at the head of the list (`\d+` greedy). -/
def digitRun (l : List Char) : ℕ := (l.takeWhile Char.isDigit).length

/-- Length of the maximal whitespace run at the head of the list (`\s*`). -/
def wsRun (l : List Char) : ℕ := (l.takeWhile pyIsSpace).length

/-- Matcher for `\$(\d+)` at the head of the list: returns the length of
the match, if any. -/
def currencyM (l : List Char) : Option ℕ :=
  match l with
  | '$' :: rest => let d := digitRun rest; if d = 0 then none else some (1 + d)
  | _ => none

/-- Matcher for `(\d+)\s*million` (with `re.IGNORECASE`) at the head of
the list.  The character classes `\d`, `\s` and the literal are disjoint,
so greedy maximal munch is exact regex semantics here. -/
def millionM (l : List Char) : Option ℕ :=
  let d := digitRun l
  if d = 0 then none
  else
    let r1 := l.drop d
    let w := wsRun r1
    if lowerStr ((r1.drop w).take 7) = "million".toList then some (d + w + 7)
    else none

/-- Matcher for `(\d+)\s*%` at the head of the list. -/
def percentM (l : List Char) : Option ℕ :=
  let d := digitRun l
  if d = 0 then none
  else
    let r1 := l.drop d
    let w := wsRun r1
    if (r1.drop w).head? = some '%' then some (d + w + 1) else none

/-- Number of leading `,\d{3}` groups (the `(?:,\d{3})+` part of the
thousands-grouped pattern, greedy). -/
def groupRun : List Char → ℕ
  | ',' :: a :: b :: c :: rest =>
    if a.isDigit && b.isDigit && c.isDigit then 1 + groupRun rest else 0
  | _ => 0

/-- Matcher for `(\d{1,3}(?:,\d{3})+)` at the head of the list.  A match
starting at a position inside a digit run of length `> 3` is impossible
(after up to three digits the next character is another digit, not a
comma), which the `d ≤ 3` guard reflects. -/
def formattedM (l : List Char) : Option ℕ :=
  let d := digitRun l
  if d = 0 || 3 < d then none
  else
    let g := groupRun (l.drop d)
    if g = 0 then none else some (d + 4 * g)

/-- `re.finditer`: scan left to right, at each position try the matcher,
emit the matched text with its start position and resume after the match
(all four patterns only produce non-empty matches).  `fuel` is consumed
one unit per step and is instantiated with the text length. -/
def scanAll (m : List Char → Option ℕ) : ℕ → List Char → ℕ → List (String × ℕ)
  | 0, _, _ => []
  | _, [], _ => []
  | fuel+1, c :: rest, pos =>
    match m (c :: rest) with
    | some len =>
      (String.mk ((c :: rest).take len), pos) ::
        scanAll m fuel ((c :: rest).drop (max len 1)) (pos + max len 1)
    | none => scanAll m fuel rest (pos + 1)

/-- All `\$(\d+)` matches of a text, with start positions, in text order. -/
def currencyMatches (t : String) : List (String × ℕ) :=
  scanAll currencyM t.toList.length t.toList 0

/-- All `(\d+)\s*million` matches of a text, with start positions. -/
def millionMatches (t : String) : List (String × ℕ) :=
  scanAll millionM t.toList.length t.toList 0

/-- All `(\d+)\s*%` matches of a text, with start positions. -/
def percentMatches (t : String) : List (String × ℕ) :=
  scanAll percentM t.toList.length t.toList 0

/-- All `(\d{1,3}(?:,\d{3})+)` matches of a text, with start positions. -/
def formattedMatches (t : String) : List (String × ℕ) :=
  scanAll formattedM t.toList.length t.toList 0

/-- The number matches in the order `ScriptValidator.analyze` reports
them: grouped by pattern (currency, large-number, percentage,
thousands-grouped), each group in text order. -/
def numberMatches (t : String) : List (String × ℕ) :=
  currencyMatches t ++ millionMatches t ++ percentMatches t ++ formattedMatches t

/-- The acronym block of `analyze`: one `choose` issue per table entry
contained (case-sensitively) in the text, in table order. -/
def acronymIssues (t : String) : List ScriptIssue :=
  ACRONYMS.filterMap fun e =>
    if containsSub t.toList e.1.toList then
      some { issue_type := "acronym", found := e.1, suggestion := e.2.2,
             action := "choose", ipa_correct := some e.2.1 }
    else none

/-- The compound block of `analyze`: case-insensitive containment, one
`confirm` issue per matching table entry, in table order. -/
def compoundIssues (t : String) : List ScriptIssue :=
  COMPOUNDS.filterMap fun e =>
    if containsSub (lowerStr t.toList) (lowerStr e.1.toList) then
      some { issue_type := "compound", found := e.1,
             suggestion := "Use '" ++ e.2.1 ++ "' (no pause)",
             action := "confirm", ipa_correct := some e.2.2 }
    else none

/-- Helper building one `number` issue from a match. -/
def numIssue (numType : String) (m : String × ℕ) : ScriptIssue :=
  { issue_type := "number", found := m.1,
    suggestion := "Will be spoken naturally (" ++ numType ++ ")",
    action := "auto" }

/-- The number block of `analyze`: the four patterns are scanned in source
order, each over the whole text. -/
def numberIssues (t : String) : List ScriptIssue :=
  (currencyMatches t).map (numIssue "currency") ++
  (millionMatches t).map (numIssue "large_number") ++
  (percentMatches t).map (numIssue "percentage") ++
  (formattedMatches t).map (numIssue "formatted_number")

/-- The brand block of `analyze`: case-sensitive containment, one
`confirm` issue per matching table entry, in table order. -/
def brandIssues (t : String) : List ScriptIssue :=
  BRANDS.filterMap fun e =>
    if containsSub t.toList e.1.toList then
      some { issue_type := "brand", found := e.1,
             suggestion := "Standard pronunciation",
             action := "confirm", ipa_correct := some e.2 }
    else none

/-- Model of `ScriptValidator.analyze` (lines 110–163): the issue list is
assembled by appending the acronym, compound, number and brand blocks in
that order. -/
def analyze (t : String) : List ScriptIssue :=
  acronymIssues t ++ compoundIssues t ++ numberIssues t ++ brandIssues t

/-- Rank of an issue type in the order the blocks are emitted. -/
def issueRank (ty : String) : ℕ :=
  if ty = "acronym" then 0
  else if ty = "compound" then 1
  else if ty = "number" then 2
  else if ty = "brand" then 3
  else 4

/-! ## `videopitch.py`: `AudioGenerator.get_voice` -/

/-- The `VoiceConfig` dataclass: a voice name, a speed, and an optional
blend dictionary `{voice_name: weight}` (modelled as an insertion-ordered
association list, matching Python dict iteration). -/
structure VoiceConfig where
  voice : String
  speed : ℚ := 1
  blend : Option (List (String × ℚ)) := none
deriving Repr, DecidableEq

/-- What `get_voice` can return: a style vector (`np.ndarray`), the raw
voice-name string, or Python `None`. -/
inductive VoiceResult where
  | style (v : List ℚ)
  | rawName (s : String)
  | noneV
deriving Repr, DecidableEq

/-- `self.voice_styles.get(name)`: lookup in the pre-loaded style cache. -/
def lookupStyle (styles : List (String × List ℚ)) (name : String) :
    Option (List ℚ) :=
  (styles.find? fun p => p.1 == name).map (·.2)

/-- The blend accumulation loop of `get_voice`: for each `(name, weight)`
in insertion order, skip cache misses; the first cached style initializes
`blended = weight * style`, later ones accumulate `blended += weight *
style` elementwise. -/
def blendLoop (styles : List (String × List ℚ)) :
    List (String × ℚ) → Option (List ℚ) → Option (List ℚ)
  | [], acc => acc
  | (name, w) :: rest, acc =>
    match lookupStyle styles name with
    | none => blendLoop styles rest acc
    | some st =>
      match acc with
      | none => blendLoop styles rest (some (st.map (w * ·)))
      | some b => blendLoop styles rest (some (b.zipWith (· + ·) (st.map (w * ·))))

/-- Model of `AudioGenerator.get_voice` (lines 208–222).  Python's
`if voice_config.blend:` is truthiness: an absent blend *and* an empty
blend dict both take the non-blend branch, which returns
`voice_styles.get(voice, voice)` — the raw name string on a cache miss. -/
def getVoice (styles : List (String × List ℚ)) (cfg : VoiceConfig) :
    VoiceResult :=
  match cfg.blend with
  | some (b :: bs) =>
    match blendLoop styles (b :: bs) none with
    | some v => .style v
    | none => .noneV
  | _ =>
    match lookupStyle styles cfg.voice with
    | some v => .style v
    | none => .rawName cfg.voice

/-! ## `videopitch.py`: `VideoPitchEngine.parse_script` -/

/-- Python `str.strip()`. -/
def pyStrip (l : List Char) : List Char :=
  ((l.dropWhile pyIsSpace).reverse.dropWhile pyIsSpace).reverse

/-- Python `str.split(sep)` for a non-empty separator, on character lists.
`fuel` is consumed one unit per character examined and is instantiated
with `length + 1`. -/
def splitAux (sep : List Char) : ℕ → List Char → List Char → List (List Char)
  | 0, acc, l => [acc.reverse ++ l]
  | fuel+1, acc, l =>
    match l with
    | [] => [acc.reverse]
    | c :: rest =>
      if sep.isPrefixOf (c :: rest) then
        acc.reverse :: splitAux sep fuel [] ((c :: rest).drop sep.length)
      else
        splitAux sep fuel (c :: acc) rest

/-- Python `text.split(sep)` (non-regex, non-empty separator). -/
def pySplit (sep : List Char) (l : List Char) : List (List Char) :=
  splitAux sep (l.length + 1) [] l

/-- Model of `VideoPitchEngine.parse_script` (lines 305–332) with the TTS
model absent (`self.audio_gen.kokoro is None`, as when `kokoro_onnx` is
not installed), so `ipa` is `None`.  Splits on the marker, strips each
part, skips empty parts (their positional index is still consumed), and
derives the scene id from a heading line (`#`-prefixed or `:`-suffixed,
normalized to lowercase alphanumerics) or positionally as `scene{i+1}`.
No duplicate-id check of any kind is performed. -/
def parseScript (scriptText : String) (sceneMarkers : String) : List Scene :=
  let parts := pySplit sceneMarkers.toList scriptText.toList
  parts.enum.filterMap fun pr =>
    let part := pyStrip pr.2
    if part.isEmpty then none
    else
      let lines := pySplit ['\n'] part
      let firstLine := pyStrip (lines.headD [])
      if firstLine.head? = some '#' || firstLine.getLast? = some ':' then
        let sceneId := String.mk ((lowerStr firstLine).filter Char.isAlphanum)
        let text := pyStrip (List.intercalate ['\n'] (lines.drop 1))
        some { id := sceneId, text := String.mk text }
      else
        some { id := "scene" ++ toString (pr.1 + 1), text := String.mk part }

/-! ## `videopitch.py`: `VideoPitchEngine.generate_manifest` -/

/-- A directory entry as seen by `Path.glob("*")`: a name, its byte
content, and whether it is a regular file. -/
structure DirEntry where
  name : String
  content : List ℕ
  isFile : Bool := true
deriving Repr, DecidableEq

/-- The fixed extension allowlist of `generate_manifest`. -/
def trackedExts : List String := [".wav", ".mp3", ".yaml", ".json"]

/-- `pathlib.Path.suffix`: the final extension including its dot; empty
for names without a dot or whose only dot is the leading character. -/
def pathSuffix (name : String) : String :=
  let rev := name.toList.reverse
  let k := (rev.takeWhile (· != '.')).length
  if k = rev.length then ""
  else if k + 1 = rev.length then ""
  else String.mk ((rev.take (k + 1)).reverse)

/-- The comparison `sorted()` uses on the glob result: path-name order. -/
def nameLe (a b : DirEntry) : Bool := decide (a.name ≤ b.name)

/-- The entries `generate_manifest` emits: the directory listing sorted by
name, then filtered to regular files with a tracked extension (the source
sorts first and filters inside the loop; the emitted order is the same). -/
def manifestEntries (entries : List DirEntry) : List DirEntry :=
  (entries.mergeSort nameLe).filter fun e =>
    e.isFile && trackedExts.contains (pathSuffix e.name)

/-- One manifest body line: `hash`, two spaces, `filename`. -/
def entryLine (h : List ℕ → String) (e : DirEntry) : String :=
  h e.content ++ "  " ++ e.name

/-- `"\n".join(...)`. -/
def joinLines : List String → String
  | [] => ""
  | [s] => s
  | s :: rest => s ++ "\n" ++ joinLines rest

/-- Model of `generate_timing`'s sibling `generate_manifest` (lines
474–490), parameterized by the content-hash function `h` (SHA-256 in the
source) and by `now`, the `datetime.now().isoformat()` string interpolated
into the second header line. -/
def generateManifest (h : List ℕ → String) (district version now : String)
    (entries : List DirEntry) : String :=
  joinLines
    (["# " ++ district ++ " " ++ version ++ " - SHA256 Checksums",
      "# Generated: " ++ now,
      ""] ++ (manifestEntries entries).map (entryLine h))

/-! ## Reference recursions and concrete fixtures used by the theorems -/

/-- Closed-form description of the `scene_timings` list `build_voiceover`
computes when every scene file exists: each scene occupies
`[t, t + duration]` and the cursor then advances by the gap. -/
def timingsOf (dur : String → ℚ) (gap : ℚ) : List SceneCfg → ℚ → List Timing
  | [], _ => []
  | s :: rest, t =>
    { id := s.id, component := s.component,
      start := t, endS := t + dur s.file, duration := dur s.file,
      fadeIn := s.fadeIn.getD true, fadeOut := s.fadeOut.getD true } ::
      timingsOf dur gap rest (t + dur s.file + gap)

/-- Closed-form description of the `total_duration` `build_voiceover`
computes: the last scene contributes no trailing gap. -/
def totalOf (dur : String → ℚ) (gap : ℚ) : List SceneCfg → ℚ → ℚ
  | [], t => t
  | [s], t => t + dur s.file
  | s :: rest, t => totalOf dur gap rest (t + dur s.file + gap)

/-- The `meta` block of the specification's end-to-end example:
gap 0.5 s, 30 fps, 15 fade frames. -/
def exMeta : Meta :=
  { sample_rate := 24000, fps := 30, fade_frames := 15,
    scene_gap_seconds := 1/2, volume_boost_db := 0, version := "v5" }

/-- The scene list of the end-to-end example: `hook` (5.0 s, fadeOut) and
`close` (3.0 s, no fadeOut). -/
def exCfg : Config :=
  { meta := exMeta,
    scenes :=
      [{ id := "hook", file := "hook.wav", component := "Hook",
         fadeOut := some true },
       { id := "close", file := "close.wav", component := "Close",
         fadeOut := some false }] }

/-- Measured durations of the example's WAV files. -/
def exDur : String → ℚ :=
  fun f => if f = "hook.wav" then 5 else if f = "close.wav" then 3 else 0

/-- The timeline `build_voiceover` computes for the example. -/
def exTimings : List Timing :=
  [{ id := "hook", component := "Hook", start := 0, endS := 5, duration := 5,
     fadeIn := true, fadeOut := true },
   { id := "close", component := "Close", start := 11/2, endS := 17/2,
     duration := 3, fadeIn := true, fadeOut := false }]

/-- A one-scene configuration (no fade-out) used to probe the frame
formula and the failure path. -/
def oneCfg : Config :=
  { meta := exMeta,
    scenes := [{ id := "hook", file := "hook.wav", component := "Hook",
                 fadeOut := some false }] }

/-- A measured duration of 5.016 s, whose two-decimal serialization 5.02
rounds to a different frame count than the exact value does. -/
def cxDur : String → ℚ := fun _ => 5016/1000

/-- The timeline `build_voiceover` computes for `oneCfg` under `cxDur`. -/
def cxTiming : Timing :=
  { id := "hook", component := "Hook", start := 0, endS := 5016/1000,
    duration := 5016/1000, fadeIn := true, fadeOut := false }

/-- A script whose two headings (`# A!`, `# A?`) normalize to the same
scene id `a`. -/
def dupScript : String := "# A!\nx\n---\n# A?\ny"

/-- The validator example sentence from the specification. -/
def exText : String := "LAUSD partners with PowerSchool for $5 million in savings."

/-- A sentence whose percentage match precedes its currency match in text
order, while the currency pattern is scanned first. -/
def cx8Text : String := "5% costs $3"

/-- A stand-in content hash used by concrete manifest runs (the claims
quantify over the hash function). -/
def mockHash : List ℕ → String := fun c => "h" ++ toString c.length

/-- A concrete directory listing with tracked and untracked entries. -/
def exEntries : List DirEntry :=
  [⟨"b.wav", [1, 2], true⟩, ⟨"a.mp3", [3], true⟩,
   ⟨"z.txt", [4], true⟩, ⟨"sub", [], false⟩]

/-- The same listing enumerated in a different filesystem order. -/
def exEntriesShuffled : List DirEntry :=
  [⟨"a.mp3", [3], true⟩, ⟨"b.wav", [1, 2], true⟩,
   ⟨"sub", [], false⟩, ⟨"z.txt", [4], true⟩]

/-- Two one-second scenes with measured durations, used to exhibit the
frame-sum drift of `generate_timing`. -/
def c3Scenes : List Scene :=
  [{ id := "a", duration := some 1 }, { id := "b", duration := some 1 }]

/-- The output of `generate_timing c3Scenes 30 0.8`: per-scene
`duration_frames` are 30 each, but the total duration carries the
inter-scene gap. -/
def c3Out : TimingOut :=
  { fps := 30, gapSeconds := 4/5,
    scenes := [{ id := "a", startFrame := 0, durationFrames := 30,
                 durationSeconds := 1 },
               { id := "b", startFrame := 54, durationFrames := 30,
                 durationSeconds := 1 }],
    totalDuration := 14/5 }

/-- The timeline of a successful one-scene build with duration 5 s
(used by the cleanup witness). -/
def c7Timing : Timing :=
  { id := "hook", component := "Hook", start := 0, endS := 5, duration := 5,
    fadeIn := true, fadeOut := false }

/-! ## Timeline builder: characterization of `build_voiceover` (C1) -/

/-- Single unfolding step of `buildLoop` on a non-empty scene list. -/
lemma buildLoop_cons (dur : String → ℚ) (fs : FS) (gap : ℚ) (s : SceneCfg)
    (rest : List SceneCfg) (t : ℚ) :
    buildLoop dur fs gap (s :: rest) t =
      if s.file ∈ fs then
        (buildLoop dur fs gap rest
            (if rest.isEmpty then t + dur s.file else t + dur s.file + gap)).map
          fun p =>
            ({ id := s.id, component := s.component,
               start := t, endS := t + dur s.file, duration := dur s.file,
               fadeIn := s.fadeIn.getD true,
               fadeOut := s.fadeOut.getD true } :: p.1, p.2)
      else .error (.fileNotFound s.file) := rfl

/-- When every scene file exists, the loop of `build_voiceover` succeeds
and computes exactly the closed-form timings and total. -/
lemma buildLoop_eq (dur : String → ℚ) (fs : FS) (gap : ℚ) :
    ∀ (scenes : List SceneCfg) (t : ℚ), (∀ s ∈ scenes, s.file ∈ fs) →
      buildLoop dur fs gap scenes t =
        .ok (timingsOf dur gap scenes t, totalOf dur gap scenes t)
  | [], _, _ => rfl
  | s :: rest, t, h => by
    have hs : s.file ∈ fs := h s (List.mem_cons_self s rest)
    have hrest : ∀ x ∈ rest, x.file ∈ fs := fun x hx => h x (List.mem_cons_of_mem s hx)
    rw [buildLoop_cons, if_pos hs]
    cases rest with
    | nil =>
      rw [buildLoop_eq dur fs gap [] _ hrest]
      simp [timingsOf, totalOf, Except.map]
    | cons b r =>
      simp only [List.isEmpty_cons, Bool.false_eq_true, if_false]
      rw [buildLoop_eq dur fs gap (b :: r) _ hrest]
      simp [timingsOf, totalOf, Except.map]

/-- The closed-form timing list has one entry per scene. -/
lemma timingsOf_length (dur : String → ℚ) (gap : ℚ) :
    ∀ (scenes : List SceneCfg) (t : ℚ),
      (timingsOf dur gap scenes t).length = scenes.length
  | [], _ => rfl
  | _ :: rest, t => by
    simp [timingsOf, timingsOf_length dur gap rest]

/-- Every timing entry satisfies `end = start + duration`. -/
lemma timingsOf_endS (dur : String → ℚ) (gap : ℚ) :
    ∀ (scenes : List SceneCfg) (t : ℚ),
      ∀ x ∈ timingsOf dur gap scenes t, x.endS = x.start + x.duration
  | [], _ => by simp [timingsOf]
  | s :: rest, t => by
    intro x hx
    simp only [timingsOf, List.mem_cons] at hx
    rcases hx with h | h
    · subst h; rfl
    · exact timingsOf_endS dur gap rest _ x h

/-- The first timing entry starts at the initial cursor value. -/
lemma timingsOf_head (dur : String → ℚ) (gap : ℚ) (s : SceneCfg)
    (rest : List SceneCfg) (t : ℚ) :
    (timingsOf dur gap (s :: rest) t).head?.map Timing.start = some t := rfl

/-- Consecutive timing entries are separated by exactly the gap. -/
lemma timingsOf_consecutive (dur : String → ℚ) (gap : ℚ) :
    ∀ (scenes : List SceneCfg) (t : ℚ) (i : ℕ)
      (h : i + 1 < (timingsOf dur gap scenes t).length),
      ((timingsOf dur gap scenes t).get ⟨i + 1, h⟩).start =
        ((timingsOf dur gap scenes t).get ⟨i, by omega⟩).endS + gap
  | [], t, i, h => by simp [timingsOf] at h
  | s :: rest, t, 0, h => by
    cases rest with
    | nil => simp [timingsOf] at h
    | cons b r => simp [timingsOf]
  | s :: rest, t, i + 1, h => by
    have h' : i + 1 < (timingsOf dur gap rest (t + dur s.file + gap)).length := by
      simpa [timingsOf] using h
    simpa [timingsOf] using
      timingsOf_consecutive dur gap rest (t + dur s.file + gap) i h'

/-- The computed total equals the end of the last timing entry. -/
lemma timingsOf_total (dur : String → ℚ) (gap : ℚ) :
    ∀ (scenes : List SceneCfg) (t : ℚ), scenes ≠ [] →
      (timingsOf dur gap scenes t).getLast?.map Timing.endS =
        some (totalOf dur gap scenes t)
  | [], _, h => absurd rfl h
  | [s], t, _ => rfl
  | s :: b :: r, t, _ => by
    have ih := timingsOf_total dur gap (b :: r) (t + dur s.file + gap)
      (List.cons_ne_nil b r)
    simpa [timingsOf, totalOf] using ih

/-- C1: for every non-empty ordered scene list with known durations and
every gap `g ≥ 0`, the timeline `build_voiceover` produces satisfies
`start[0] = 0` (no gap before the first scene),
`end[i] = start[i] + duration[i]`, `start[i+1] = end[i] + g`, and the
returned `total_duration` equals `end[last]` (no trailing gap). -/
theorem C1_timeline_invariants (cfg : Config) (dur : String → ℚ) (fs : FS)
    (hne : cfg.scenes ≠ []) (hgap : 0 ≤ cfg.meta.scene_gap_seconds)
    (hfiles : ∀ s ∈ cfg.scenes, s.file ∈ fs) :
    ∃ (ts : List Timing) (total : ℚ) (fsf : FS),
      buildVoiceover cfg dur fs =
        (.ok (mp3Name cfg.meta.version, total, ts), fsf) ∧
      ts.length = cfg.scenes.length ∧
      ts.head?.map Timing.start = some 0 ∧
      (∀ x ∈ ts, x.endS = x.start + x.duration) ∧
      (∀ (i : ℕ) (h : i + 1 < ts.length),
        (ts.get ⟨i + 1, h⟩).start =
          (ts.get ⟨i, by omega⟩).endS + cfg.meta.scene_gap_seconds) ∧
      ts.getLast?.map Timing.endS = some total := by
  obtain ⟨s, rest, hsc⟩ : ∃ s rest, cfg.scenes = s :: rest := by
    cases h : cfg.scenes with
    | nil => exact absurd h hne
    | cons a l => exact ⟨a, l, rfl⟩
  have hfs2 : ∀ x ∈ cfg.scenes,
      x.file ∈ ((fs.create silenceName).create concatListName) := by
    intro x hx
    simp only [FS.create, List.mem_insert_iff]
    exact Or.inr (Or.inr (hfiles x hx))
  have hloop := buildLoop_eq dur ((fs.create silenceName).create concatListName)
    cfg.meta.scene_gap_seconds cfg.scenes 0 hfs2
  refine ⟨timingsOf dur cfg.meta.scene_gap_seconds cfg.scenes 0,
    totalOf dur cfg.meta.scene_gap_seconds cfg.scenes 0,
    ((((((fs.create silenceName).create concatListName).create
        tempWavName).create
        (mp3Name cfg.meta.version)).remove concatListName).remove
        silenceName).remove tempWavName,
    ?_, ?_, ?_, ?_, ?_, ?_⟩
  · simp only [buildVoiceover, hloop]
  · exact timingsOf_length dur cfg.meta.scene_gap_seconds cfg.scenes 0
  · rw [hsc]
    exact timingsOf_head dur cfg.meta.scene_gap_seconds s rest 0
  · exact timingsOf_endS dur cfg.meta.scene_gap_seconds cfg.scenes 0
  · exact timingsOf_consecutive dur cfg.meta.scene_gap_seconds cfg.scenes 0
  · exact timingsOf_total dur cfg.meta.scene_gap_seconds cfg.scenes 0 hne

/-- Witness for C1: the end-to-end example configuration (two scenes of
5 s and 3 s, gap 0.5 s) satisfies all hypotheses, and the invariants hold
for its computed timeline. -/
theorem C1_timeline_invariants_witness :
    (0 : ℚ) ≤ exCfg.meta.scene_gap_seconds ∧
    ∃ (ts : List Timing) (total : ℚ) (fsf : FS),
      buildVoiceover exCfg exDur ["hook.wav", "close.wav"] =
        (.ok (mp3Name exCfg.meta.version, total, ts), fsf) ∧
      ts.length = exCfg.scenes.length ∧
      ts.head?.map Timing.start = some 0 ∧
      (∀ x ∈ ts, x.endS = x.start + x.duration) ∧
      (∀ (i : ℕ) (h : i + 1 < ts.length),
        (ts.get ⟨i + 1, h⟩).start =
          (ts.get ⟨i, by omega⟩).endS + exCfg.meta.scene_gap_seconds) ∧
      ts.getLast?.map Timing.endS = some total :=
  ⟨by norm_num [exCfg, exMeta],
   C1_timeline_invariants exCfg exDur ["hook.wav", "close.wav"]
     (by decide) (by norm_num [exCfg, exMeta]) (by decide)⟩

/-! ## Empty input (C4) and missing durations (C5) -/

/-- C4 counterexample: on the empty scene list `build_voiceover` returns a
result — output name, total duration `0.0` and an empty timeline — and
raises nothing; no `EmptyInputError` exists anywhere in the code. -/
theorem C4_empty_build_cx :
    (buildVoiceover { meta := exMeta, scenes := [] } exDur []).1 =
      .ok (mp3Name exMeta.version, 0, []) := by
  simp [buildVoiceover, buildLoop]

/-- C4 amended: for an empty scene list, `build_voiceover` silently
returns total duration `0` with an empty timeline, and `generate_timing`
silently returns the (negative, for positive gaps) total
`(0 - int(gap*fps)) / fps`; neither function raises any error on empty
input. -/
theorem C4_empty_build_returns (meta : Meta) (fa : List String)
    (dur : String → ℚ) (fs : FS) (fps : ℤ) (gap : ℚ) (hfps : fps ≠ 0) :
    (buildVoiceover { meta := meta, scenes := [], frozen_assets := fa } dur fs).1 =
      .ok (mp3Name meta.version, 0, []) ∧
    generateTiming [] fps gap =
      .ok { fps := fps, gapSeconds := gap, scenes := [],
            totalDuration := ((0 - pyInt (gap * (fps : ℚ)) : ℤ) : ℚ) / (fps : ℚ) } := by
  constructor
  · simp [buildVoiceover, buildLoop]
  · simp [generateTiming, timingLoop, hfps]

/-- Witness for C4 amended: concrete empty builds at `fps = 30`,
gap `0.8`. -/
theorem C4_empty_build_returns_witness :
    (buildVoiceover { meta := exMeta, scenes := [], frozen_assets := [] } exDur []).1 =
      .ok (mp3Name exMeta.version, 0, []) ∧
    generateTiming [] 30 (4/5) =
      .ok { fps := 30, gapSeconds := 4/5, scenes := [],
            totalDuration := ((0 - pyInt ((4/5) * ((30 : ℤ) : ℚ)) : ℤ) : ℚ) / ((30 : ℤ) : ℚ) } :=
  C4_empty_build_returns exMeta [] exDur [] 30 (4/5) (by decide)

/-- The loop of `generate_timing` raises `TypeError` as soon as any scene
in the list has no measured duration. -/
lemma timingLoop_err (fps : ℤ) (gap : ℚ) :
    ∀ (scenes : List Scene) (cur : ℤ), (∃ s ∈ scenes, s.duration = none) →
      timingLoop fps gap scenes cur = .error .typeErr
  | [], _, h => by simp at h
  | a :: rest, cur, h => by
    cases ha : a.duration with
    | none => simp [timingLoop, ha]
    | some d =>
      obtain ⟨s0, hmem, hdur⟩ := h
      rcases List.mem_cons.mp hmem with h1 | h1
      · rw [h1, ha] at hdur
        cases hdur
      · have ih := timingLoop_err fps gap rest
          (cur + pyInt (d * (fps : ℚ)) + pyInt (gap * (fps : ℚ))) ⟨s0, h1, hdur⟩
        simp [timingLoop, ha, ih, Except.map]

/-- C5 amended: whenever any scene's duration is unknown,
`generate_timing` fails — with an uncaught `TypeError` from
`None * fps` (there is no dedicated `MissingDurationError` in the code) —
and in particular never proceeds with an assumed or default duration. -/
theorem C5_missing_duration_fails (scenes : List Scene) (fps : ℤ) (gap : ℚ)
    (h : ∃ s ∈ scenes, s.duration = none) :
    generateTiming scenes fps gap = .error .typeErr := by
  have hl := timingLoop_err fps gap scenes 0 h
  simp [generateTiming, hl]

/-- Witness for C5 amended: a single scene with no measured duration. -/
theorem C5_missing_duration_fails_witness :
    generateTiming [{ id := "a" }] 30 (4/5) = .error .typeErr :=
  C5_missing_duration_fails [{ id := "a" }] 30 (4/5)
    ⟨{ id := "a" }, List.mem_singleton_self _, rfl⟩

/-- C5 counterexample: the failure on a missing duration is a `TypeError`,
not the `MissingDurationError` the claim names (no such error class exists
in the code). -/
theorem C5_error_identity_cx :
    generateTiming [{ id := "a" }] 30 (4/5) = .error .typeErr ∧
    (PyErr.typeErr : PyErr) ≠ .missingDurationError := by
  refine ⟨?_, by decide⟩
  simp [generateTiming, timingLoop]

/-! ## Frame-sum accounting of `generate_timing` (C3) -/

/-- Inversion of the `generate_timing` loop: on success, the final frame
cursor equals the initial one plus the per-scene frame counts plus one
gap-frame block per scene (the last scene included). -/
lemma timingLoop_sum (fps : ℤ) (gap : ℚ) :
    ∀ (scenes : List Scene) (cur : ℤ) (entries : List TEntry) (fin : ℤ),
      timingLoop fps gap scenes cur = .ok (entries, fin) →
      fin = cur + ((entries.map TEntry.durationFrames).sum +
        (scenes.length : ℤ) * pyInt (gap * (fps : ℚ))) ∧
      entries.length = scenes.length
  | [], cur, entries, fin, h => by
    simp only [timingLoop, Except.ok.injEq, Prod.mk.injEq] at h
    obtain ⟨he, hf⟩ := h
    subst he hf
    simp
  | a :: rest, cur, entries, fin, h => by
    cases ha : a.duration with
    | none => simp [timingLoop, ha] at h
    | some d =>
      simp only [timingLoop, ha] at h
      cases hrec : timingLoop fps gap rest
          (cur + pyInt (d * (fps : ℚ)) + pyInt (gap * (fps : ℚ))) with
      | error e => rw [hrec] at h; simp [Except.map] at h
      | ok p =>
        rw [hrec] at h
        simp only [Except.map, Except.ok.injEq, Prod.mk.injEq] at h
        obtain ⟨he, hf⟩ := h
        obtain ⟨ihsum, ihlen⟩ := timingLoop_sum fps gap rest _ p.1 p.2 (by rw [hrec])
        subst he hf
        constructor
        · rw [ihsum]
          simp only [List.map_cons, List.sum_cons, List.length_cons]
          push_cast
          ring
        · simp [ihlen]

/-- C3 amended: for every scene list with known durations and every
nonzero fps, the exact relation is
`sum(duration_frames) + (n - 1) * int(gap_seconds * fps)
  = round(total_duration * fps)`:
the per-scene frame counts never include the `n - 1` inter-scene gap
blocks that the total duration does include, so the claimed `±1` bound
fails as soon as two scenes are separated by a gap of at least one frame
(it holds only when `int(gap_seconds * fps) = 0`). -/
theorem C3_frame_sum_identity (scenes : List Scene) (fps : ℤ) (gap : ℚ)
    (out : TimingOut) (h : generateTiming scenes fps gap = .ok out) :
    ((out.scenes.map TEntry.durationFrames).sum : ℤ) +
      ((scenes.length : ℤ) - 1) * pyInt (gap * (fps : ℚ)) =
      round (out.totalDuration * (fps : ℚ)) := by
  cases hloop : timingLoop fps gap scenes 0 with
  | error e => simp [generateTiming, hloop] at h
  | ok p =>
    obtain ⟨entries, cur⟩ := p
    simp only [generateTiming, hloop] at h
    by_cases hfps : fps = 0
    · rw [if_pos hfps] at h
      cases h
    · rw [if_neg hfps] at h
      obtain ⟨hsum, _⟩ := timingLoop_sum fps gap scenes 0 entries cur hloop
      have hout : out = { fps := fps, gapSeconds := gap, scenes := entries,
                          totalDuration :=
                            ((cur - pyInt (gap * (fps : ℚ)) : ℤ) : ℚ) / (fps : ℚ) } :=
        ((Except.ok.injEq _ _).mp h).symm
      subst hout
      have hfpsQ : ((fps : ℚ)) ≠ 0 := Int.cast_ne_zero.mpr hfps
      simp only
      rw [div_mul_cancel₀ _ hfpsQ, round_intCast, hsum]
      ring

/-- Witness for C3 amended: two one-second scenes at 30 fps with a 0.8 s
gap satisfy the exact identity (`60 + 1 * 24 = 84`). -/
theorem C3_frame_sum_identity_witness :
    ((c3Out.scenes.map TEntry.durationFrames).sum : ℤ) +
      ((c3Scenes.length : ℤ) - 1) * pyInt ((4/5) * ((30 : ℤ) : ℚ)) =
      round (c3Out.totalDuration * ((30 : ℤ) : ℚ)) :=
  C3_frame_sum_identity c3Scenes 30 (4/5) c3Out (by
    simp only [generateTiming, timingLoop, c3Scenes, c3Out, pyInt, Except.map]
    norm_num)

/-- C3 counterexample: at `fps = 30` (a member of the claimed fps set)
and the default gap `0.8`, two one-second scenes give
`sum(duration_frames) = 60` but `round(total_duration * fps) = 84`,
so the claimed `±1` bound is violated by 24 frames. -/
theorem C3_frame_sum_cx :
    generateTiming c3Scenes 30 (4/5) = .ok c3Out ∧
    ¬ |((c3Out.scenes.map TEntry.durationFrames).sum : ℤ) -
        round (c3Out.totalDuration * ((30 : ℤ) : ℚ))| ≤ 1 := by
  constructor
  · simp only [generateTiming, timingLoop, c3Scenes, c3Out, pyInt, Except.map]
    norm_num
  · simp only [c3Out, List.map_cons, List.map_nil, List.sum_cons, List.sum_nil]
    norm_num [round_eq]

/-! ## Frame quantization in `generate_timing_js` (C2) -/

/-- C2 counterexample: for a single scene whose measured duration is
5.016 s (no fade-out), the pipeline serializes the timeline through
two-decimal formatting, so `TIMING.js` carries
`Math.round(5.02 * 30) = 151` frames, while the claimed formula
`round((end_seconds - start_seconds) * fps)` on the exact timeline values
gives `round(150.48) = 150`. -/
theorem C2_format_rounding_cx :
    (buildVoiceover oneCfg cxDur ["hook.wav"]).1 =
      .ok (mp3Name exMeta.version, 5016/1000, [cxTiming]) ∧
    generateTimingJs [cxTiming] 30 15 =
      [{ id := "hook", startFrame := 0, durationFrames := 151 }] ∧
    round ((cxTiming.endS - cxTiming.start) * ((30 : ℤ) : ℚ)) +
      (if cxTiming.fadeOut then (15 : ℤ) else 0) = 150 ∧
    (151 : ℤ) ≠ 150 := by
  refine ⟨?_, ?_, ?_, by decide⟩
  · have h1 : "hook.wav" ∈
        (FS.create ["hook.wav"] silenceName).create concatListName := by decide
    simp only [buildVoiceover, buildLoop, oneCfg, exMeta, cxDur, cxTiming]
    norm_num [h1, Except.map]
  · simp only [generateTimingJs, cxTiming, List.map_cons, List.map_nil,
      JsScene.mk.injEq, fmt2, rhe]
    norm_num [round_eq]
  · simp only [cxTiming]
    norm_num [round_eq]

/-- C2 amended (and the claim's own example, which does hold): on the
specification's end-to-end example — `hook` 5.0 s with fade-out, `close`
3.0 s without, gap 0.5 s, fps 30, fade_frames 15 — the audio timeline is
`hook: 0.00–5.00`, `close: 5.50–8.50`, `total 8.50` (fades never extend
it), and the emitted frames are `hook: start 0, duration 165`,
`close: start 165, duration 90`, with `round(8.50 * 30) = 255` total
frames; in general the rounding applies to the two-decimal-serialized
timeline values, which coincide with the exact ones here. -/
theorem C2_frame_quantization_example :
    (buildVoiceover exCfg exDur ["hook.wav", "close.wav"]).1 =
      .ok (mp3Name exMeta.version, 17/2, exTimings) ∧
    generateTimingJs exTimings 30 15 =
      [{ id := "hook", startFrame := 0, durationFrames := 165 },
       { id := "close", startFrame := 165, durationFrames := 90 }] ∧
    jsTotalFrames (17/2) 30 = 255 := by
  refine ⟨?_, ?_, ?_⟩
  · have h1 : "hook.wav" ∈
        (FS.create ["hook.wav", "close.wav"] silenceName).create concatListName := by
      decide
    have h2 : "close.wav" ∈
        (FS.create ["hook.wav", "close.wav"] silenceName).create concatListName := by
      decide
    have h3 : ¬ ("close.wav" = "hook.wav") := by decide
    simp only [buildVoiceover, buildLoop, exCfg, exMeta, exDur, exTimings]
    norm_num [h1, h2, h3, Except.map]
  · simp only [generateTimingJs, exTimings, List.map_cons, List.map_nil,
      JsScene.mk.injEq, fmt2, rhe]
    norm_num [round_eq]
  · simp only [jsTotalFrames, fmt2, rhe]
    norm_num [round_eq]

/-! ## Scene parsing without a duplicate check (C6) -/

/-- C6 counterexample: the script `"# A!\nx\n---\n# A?\ny"` parses
successfully (no error of any kind is possible — `parse_script` is total)
and returns two scenes both named `a`, so the returned ids are not
pairwise distinct. -/
theorem C6_duplicate_ids_cx :
    (parseScript dupScript "---").map Scene.id = ["a", "a"] ∧
    ¬ ((parseScript dupScript "---").map Scene.id).Nodup := by
  decide

/-- C6 amended: `parse_script` performs no duplicate-id detection
whatsoever: when two headings normalize to the same id it returns both
scenes unchanged, with colliding ids and their respective texts (no
`DuplicateSceneIdError` exists in the code). -/
theorem C6_parse_returns_duplicates :
    parseScript dupScript "---" =
      [{ id := "a", text := "x" }, { id := "a", text := "y" }] := by
  decide

/-! ## Intermediate-file cleanup in `build_voiceover` (C7) -/

/-- C7 counterexample: when the (single) scene's WAV file is missing, the
build aborts with `FileNotFoundError`, but the silence clip and the concat
list it had already created are left on disk — the source has no
`try`/`finally`, so no cleanup runs on the failure path. -/
theorem C7_cleanup_on_failure_cx :
    (buildVoiceover oneCfg exDur []).1 = .error (.fileNotFound "hook.wav") ∧
    silenceName ∈ (buildVoiceover oneCfg exDur []).2 ∧
    concatListName ∈ (buildVoiceover oneCfg exDur []).2 ∧
    silenceName ∉ ([] : FS) ∧ concatListName ∉ ([] : FS) :=
  ⟨rfl, by decide, by decide, by decide, by decide⟩

/-- C7 amended: on the success path all three intermediates (concat list,
silence clip, lossless concatenated WAV) are removed before
`build_voiceover` returns; on failure paths the intermediates already
created are left behind (see the counterexample). -/
theorem C7_success_cleanup (cfg : Config) (dur : String → ℚ) (fs : FS)
    (r : String × ℚ × List Timing) (fsf : FS)
    (h : buildVoiceover cfg dur fs = (.ok r, fsf)) (hnd : fs.Nodup) :
    silenceName ∉ fsf ∧ concatListName ∉ fsf ∧ tempWavName ∉ fsf := by
  cases hloop : buildLoop dur ((fs.create silenceName).create concatListName)
      cfg.meta.scene_gap_seconds cfg.scenes 0 with
  | error e => simp [buildVoiceover, hloop] at h
  | ok p =>
    obtain ⟨timings, total⟩ := p
    simp only [buildVoiceover, hloop, Prod.mk.injEq] at h
    obtain ⟨-, hfsf⟩ := h
    subst hfsf
    have hnd4 :
        (((((fs.create silenceName).create concatListName).create
          tempWavName).create (mp3Name cfg.meta.version))).Nodup :=
      ((hnd.insert.insert).insert).insert
    refine ⟨?_, ?_, ?_⟩
    · intro hm
      have hm2 := List.mem_of_mem_erase hm
      have hnd5 := (hnd4.erase concatListName)
      exact (hnd5.mem_erase_iff.mp hm2).1 rfl
    · intro hm
      have hm2 := List.mem_of_mem_erase (List.mem_of_mem_erase hm)
      exact (hnd4.mem_erase_iff.mp hm2).1 rfl
    · intro hm
      have hnd6 := ((hnd4.erase concatListName).erase silenceName)
      exact (hnd6.mem_erase_iff.mp hm).1 rfl

/-- Witness for C7 amended: a successful one-scene build starting from the
file system `["hook.wav"]` ends with none of the three intermediates
present. -/
theorem C7_success_cleanup_witness :
    silenceName ∉ ([mp3Name "v5", "hook.wav"] : FS) ∧
    concatListName ∉ ([mp3Name "v5", "hook.wav"] : FS) ∧
    tempWavName ∉ ([mp3Name "v5", "hook.wav"] : FS) :=
  C7_success_cleanup oneCfg exDur ["hook.wav"]
    (mp3Name "v5", 5, [c7Timing]) [mp3Name "v5", "hook.wav"]
    (by
      have h1 : "hook.wav" ∈
          (FS.create ["hook.wav"] silenceName).create concatListName := by decide
      have hfst : (buildVoiceover oneCfg exDur ["hook.wav"]).1 =
          .ok (mp3Name "v5", 5, [c7Timing]) := by
        simp only [buildVoiceover, buildLoop, oneCfg, exMeta, exDur, c7Timing]
        norm_num [h1, Except.map]
      have hsnd : (buildVoiceover oneCfg exDur ["hook.wav"]).2 =
          [mp3Name "v5", "hook.wav"] := by decide
      exact Prod.ext hfst hsnd)
    (by decide)

/-! ## Validator ordering and the example sentence (C8) -/

/-- Every acronym-block issue carries `issue_type = "acronym"`. -/
lemma mem_acronymIssues {t : String} {x : ScriptIssue}
    (h : x ∈ acronymIssues t) : x.issue_type = "acronym" := by
  simp only [acronymIssues, List.mem_filterMap] at h
  obtain ⟨e, -, he⟩ := h
  split_ifs at he
  injection he with h2
  subst h2
  rfl

/-- Every compound-block issue carries `issue_type = "compound"`. -/
lemma mem_compoundIssues {t : String} {x : ScriptIssue}
    (h : x ∈ compoundIssues t) : x.issue_type = "compound" := by
  simp only [compoundIssues, List.mem_filterMap] at h
  obtain ⟨e, -, he⟩ := h
  split_ifs at he
  injection he with h2
  subst h2
  rfl

/-- Every number-block issue carries `issue_type = "number"`. -/
lemma mem_numberIssues {t : String} {x : ScriptIssue}
    (h : x ∈ numberIssues t) : x.issue_type = "number" := by
  simp only [numberIssues, List.mem_append, List.mem_map] at h
  rcases h with ((⟨m, -, rfl⟩ | ⟨m, -, rfl⟩) | ⟨m, -, rfl⟩) | ⟨m, -, rfl⟩ <;> rfl

/-- Every brand-block issue carries `issue_type = "brand"`. -/
lemma mem_brandIssues {t : String} {x : ScriptIssue}
    (h : x ∈ brandIssues t) : x.issue_type = "brand" := by
  simp only [brandIssues, List.mem_filterMap] at h
  obtain ⟨e, -, he⟩ := h
  split_ifs at he
  injection he with h2
  subst h2
  rfl

/-- A list of issues of one fixed type is trivially rank-monotone. -/
lemma pairwise_rank_le {l : List ScriptIssue} {c : ℕ}
    (h : ∀ x ∈ l, issueRank x.issue_type = c) :
    l.Pairwise (fun a b => issueRank a.issue_type ≤ issueRank b.issue_type) := by
  induction l with
  | nil => exact List.Pairwise.nil
  | cons a l ih =>
    refine List.Pairwise.cons ?_ (ih fun x hx => h x (List.mem_cons_of_mem a hx))
    intro b hb
    rw [h a (List.mem_cons_self a l), h b (List.mem_cons_of_mem a hb)]

/-- The four blocks of `analyze` appear in fixed rank order for every
input text. -/
lemma analyze_rank_pairwise (t : String) :
    (analyze t).Pairwise
      (fun a b => issueRank a.issue_type ≤ issueRank b.issue_type) := by
  unfold analyze
  refine List.pairwise_append.mpr
    ⟨List.pairwise_append.mpr
      ⟨List.pairwise_append.mpr ⟨?_, ?_, ?_⟩, ?_, ?_⟩, ?_, ?_⟩
  · exact pairwise_rank_le (c := 0) fun x hx => by rw [mem_acronymIssues hx]; decide
  · exact pairwise_rank_le (c := 1) fun x hx => by rw [mem_compoundIssues hx]; decide
  · intro a ha b hb
    rw [mem_acronymIssues ha, mem_compoundIssues hb]
    decide
  · exact pairwise_rank_le (c := 2) fun x hx => by rw [mem_numberIssues hx]; decide
  · intro a ha b hb
    rw [mem_numberIssues hb]
    rcases List.mem_append.mp ha with h | h
    · rw [mem_acronymIssues h]; decide
    · rw [mem_compoundIssues h]; decide
  · exact pairwise_rank_le (c := 3) fun x hx => by rw [mem_brandIssues hx]; decide
  · intro a ha b hb
    rw [mem_brandIssues hb]
    rcases List.mem_append.mp ha with h | h
    · rcases List.mem_append.mp h with h2 | h2
      · rw [mem_acronymIssues h2]; decide
      · rw [mem_compoundIssues h2]; decide
    · rw [mem_numberIssues h]; decide

/-- Positions emitted by the scanner never precede the scan position. -/
lemma scanAll_pos_le (m : List Char → Option ℕ) :
    ∀ (fuel : ℕ) (l : List Char) (pos : ℕ),
      ∀ x ∈ scanAll m fuel l pos, pos ≤ x.2
  | 0, _, _ => by simp [scanAll]
  | _ + 1, [], _ => by simp [scanAll]
  | fuel + 1, c :: rest, pos => by
    intro x hx
    cases hm : m (c :: rest) with
    | some len =>
      simp only [scanAll, hm] at hx
      rcases List.mem_cons.mp hx with h | h
      · subst h; exact le_refl _
      · have := scanAll_pos_le m fuel _ _ x h
        omega
    | none =>
      simp only [scanAll, hm] at hx
      have := scanAll_pos_le m fuel _ _ x hx
      omega

/-- `re.finditer` emits matches in strictly increasing text order. -/
lemma scanAll_pairwise (m : List Char → Option ℕ) :
    ∀ (fuel : ℕ) (l : List Char) (pos : ℕ),
      (scanAll m fuel l pos).Pairwise (fun a b => a.2 < b.2)
  | 0, _, _ => by simp [scanAll]
  | _ + 1, [], _ => by simp [scanAll]
  | fuel + 1, c :: rest, pos => by
    cases hm : m (c :: rest) with
    | some len =>
      simp only [scanAll, hm]
      refine List.Pairwise.cons ?_ (scanAll_pairwise m fuel _ _)
      intro b hb
      have := scanAll_pos_le m fuel _ _ b hb
      omega
    | none =>
      simp only [scanAll, hm]
      exact scanAll_pairwise m fuel rest (pos + 1)

/-- C8 amended: `analyze` is a pure function whose issues appear in block
order — acronyms, then compounds, then numbers, then brands — with the
number issues grouped by pattern class (currency, large-number,
percentage, thousands-grouped), each class in strict text order; and on
the specification's example sentence it reports the acronym `LAUSD`, the
brand `PowerSchool`, the currency match `$5` and the large-number match
`5 million`. -/
theorem C8_validator_order (t : String) :
    (analyze t).Pairwise
      (fun a b => issueRank a.issue_type ≤ issueRank b.issue_type) ∧
    (currencyMatches t).Pairwise (fun a b => a.2 < b.2) ∧
    (millionMatches t).Pairwise (fun a b => a.2 < b.2) ∧
    (percentMatches t).Pairwise (fun a b => a.2 < b.2) ∧
    (formattedMatches t).Pairwise (fun a b => a.2 < b.2) ∧
    (∃ i ∈ analyze exText, i.issue_type = "acronym" ∧ i.found = "LAUSD") ∧
    (∃ i ∈ analyze exText, i.issue_type = "brand" ∧ i.found = "PowerSchool") ∧
    (∃ i ∈ analyze exText, i.issue_type = "number" ∧ i.found = "$5") ∧
    (∃ i ∈ analyze exText, i.issue_type = "number" ∧
      containsSub i.found.toList "million".toList = true) :=
  ⟨analyze_rank_pairwise t,
   scanAll_pairwise currencyM t.toList.length t.toList 0,
   scanAll_pairwise millionM t.toList.length t.toList 0,
   scanAll_pairwise percentM t.toList.length t.toList 0,
   scanAll_pairwise formattedM t.toList.length t.toList 0,
   by decide, by decide, by decide, by decide⟩

/-- C8 counterexample: on `"5% costs $3"` the reported number issues are
`$3` (text position 9) before `5%` (text position 0), because the number
patterns are scanned class by class (currency first), not in global text
order as the claim states. -/
theorem C8_number_order_cx :
    numberMatches cx8Text = [("$3", 9), ("5%", 0)] ∧
    ¬ (numberMatches cx8Text).Pairwise (fun a b => a.2 ≤ b.2) := by
  constructor
  · decide
  · decide

/-! ## Manifest determinism (C9) -/

/-- The name comparison used for sorting is transitive. -/
lemma nameLe_trans (a b c : DirEntry) :
    nameLe a b = true → nameLe b c = true → nameLe a c = true := by
  simp only [nameLe, decide_eq_true_eq]
  exact le_trans

/-- The name comparison used for sorting is total. -/
lemma nameLe_total (a b : DirEntry) : (nameLe a b || nameLe b a) = true := by
  simp only [nameLe, Bool.or_eq_true, decide_eq_true_eq]
  exact le_total a.name b.name

/-- The sorted listing is pairwise ordered by name. -/
lemma mergeSort_name_pairwise (es : List DirEntry) :
    (es.mergeSort nameLe).Pairwise (fun a b => a.name ≤ b.name) :=
  (List.sorted_mergeSort nameLe_trans nameLe_total es).imp
    fun hab => by simpa [nameLe] using hab

/-- Two name-sorted lists that are permutations of each other and have
duplicate-free names are equal: sorting by filename determines the
manifest ordering uniquely. -/
lemma sorted_perm_nodup_eq :
    ∀ {l₁ l₂ : List DirEntry}, l₁.Perm l₂ →
      l₁.Pairwise (fun a b => a.name ≤ b.name) →
      l₂.Pairwise (fun a b => a.name ≤ b.name) →
      (l₁.map DirEntry.name).Nodup → l₁ = l₂ := by
  intro l₁
  induction l₁ with
  | nil =>
    intro l₂ hp _ _ _
    exact (hp.symm.eq_nil).symm
  | cons a t ih =>
    intro l₂ hp h₁ h₂ hnd
    cases l₂ with
    | nil => exact absurd hp.eq_nil (by simp)
    | cons b t₂ =>
      have hab : a ∈ b :: t₂ := hp.subset (List.mem_cons_self a t)
      have hba : b ∈ a :: t := hp.symm.subset (List.mem_cons_self b t₂)
      have hndc : a.name ∉ t.map DirEntry.name ∧ (t.map DirEntry.name).Nodup := by
        rw [List.map_cons, List.nodup_cons] at hnd
        exact hnd
      have heq : a = b := by
        by_contra hne
        have hat₂ : a ∈ t₂ := by
          rcases List.mem_cons.mp hab with hcase | hcase
          · exact absurd hcase hne
          · exact hcase
        have hbt : b ∈ t := by
          rcases List.mem_cons.mp hba with hcase | hcase
          · exact absurd hcase.symm hne
          · exact hcase
        have hle1 : a.name ≤ b.name := (List.pairwise_cons.mp h₁).1 b hbt
        have hle2 : b.name ≤ a.name := (List.pairwise_cons.mp h₂).1 a hat₂
        have hname : a.name = b.name := le_antisymm hle1 hle2
        have hmem : a.name ∈ t.map DirEntry.name := by
          rw [hname]
          exact List.mem_map_of_mem DirEntry.name hbt
        exact hndc.1 hmem
      subst heq
      have hpt : t.Perm t₂ := hp.cons_inv
      have hrec := ih hpt (List.pairwise_cons.mp h₁).2 (List.pairwise_cons.mp h₂).2
        (by simpa using hndc.2)
      rw [hrec]

/-- C9 amended: the manifest's per-file section is deterministic — for any
two enumerations of the same directory contents (any permutation, with
distinct filenames), the sorted-and-filtered entry list, and hence every
`hash␣␣filename` line, is identical and sorted by filename; two whole
manifest documents agree whenever their header timestamps agree (the
header embeds `datetime.now()`, see the counterexample). -/
theorem C9_manifest_determinism (h : List ℕ → String) (es₁ es₂ : List DirEntry)
    (hp : es₁.Perm es₂) (hnd : (es₁.map DirEntry.name).Nodup) :
    manifestEntries es₁ = manifestEntries es₂ ∧
    (manifestEntries es₁).Pairwise (fun a b => a.name ≤ b.name) ∧
    ∀ district version now,
      generateManifest h district version now es₁ =
        generateManifest h district version now es₂ := by
  have hperm : (es₁.mergeSort nameLe).Perm (es₂.mergeSort nameLe) :=
    ((List.mergeSort_perm es₁ nameLe).trans hp).trans
      (List.mergeSort_perm es₂ nameLe).symm
  have hnd1 : ((es₁.mergeSort nameLe).map DirEntry.name).Nodup :=
    (((List.mergeSort_perm es₁ nameLe).map DirEntry.name).symm).nodup hnd
  have hsorted := sorted_perm_nodup_eq hperm (mergeSort_name_pairwise es₁)
    (mergeSort_name_pairwise es₂) hnd1
  have hme : manifestEntries es₁ = manifestEntries es₂ := by
    unfold manifestEntries
    rw [hsorted]
  refine ⟨hme, ?_, fun district version now => by unfold generateManifest; rw [hme]⟩
  unfold manifestEntries
  exact (mergeSort_name_pairwise es₁).filter _

/-- Witness for C9 amended: a concrete four-entry listing and a shuffled
enumeration of it. -/
theorem C9_manifest_determinism_witness :
    manifestEntries exEntries = manifestEntries exEntriesShuffled ∧
    (manifestEntries exEntries).Pairwise (fun a b => a.name ≤ b.name) ∧
    ∀ district version now,
      generateManifest mockHash district version now exEntries =
        generateManifest mockHash district version now exEntriesShuffled :=
  C9_manifest_determinism mockHash exEntries exEntriesShuffled
    (by decide) (by decide)

/-- C9 counterexample: two runs over the identical one-file directory at
different wall-clock times produce different manifest documents, because
the second header line embeds `datetime.now().isoformat()`. -/
theorem C9_timestamp_cx :
    generateManifest mockHash "lausd" "v1" "2026-01-01T00:00:00"
      [{ name := "a.wav", content := [1], isFile := true }] ≠
    generateManifest mockHash "lausd" "v1" "2026-01-02T00:00:00"
      [{ name := "a.wav", content := [1], isFile := true }] := by
  simp only [generateManifest, manifestEntries, List.mergeSort_singleton]
  decide

/-! ## Voice-cache miss policy of `get_voice` (C10) -/

/-- The blend loop leaves the accumulator untouched when every listed
voice misses the style cache. -/
lemma blendLoop_none (styles : List (String × List ℚ)) :
    ∀ (bl : List (String × ℚ)),
      (∀ p ∈ bl, lookupStyle styles p.1 = none) →
      ∀ acc, blendLoop styles bl acc = acc
  | [], _, _ => rfl
  | (n, w) :: rest, h, acc => by
    have hn : lookupStyle styles n = none := h (n, w) (List.mem_cons_self _ _)
    simp only [blendLoop, hn]
    exact blendLoop_none styles rest
      (fun p hp => h p (List.mem_cons_of_mem _ hp)) acc

/-- C10: a non-blend configuration whose voice name misses the style cache
silently falls back to the raw name string, and a (non-empty) blend in
which no listed voice is cached yields Python `None`.  (An *empty* blend
dict is falsy in Python and takes the non-blend branch.) -/
theorem C10_get_voice (styles : List (String × List ℚ)) (cfg : VoiceConfig) :
    (cfg.blend = none → lookupStyle styles cfg.voice = none →
      getVoice styles cfg = .rawName cfg.voice) ∧
    (∀ bl, cfg.blend = some bl → bl ≠ [] →
      (∀ p ∈ bl, lookupStyle styles p.1 = none) →
      getVoice styles cfg = .noneV) := by
  constructor
  · intro hb hl
    simp only [getVoice, hb, hl]
  · intro bl hb hne hnone
    obtain ⟨p0, rest, rfl⟩ : ∃ p0 rest, bl = p0 :: rest := by
      cases bl with
      | nil => exact absurd rfl hne
      | cons x xs => exact ⟨x, xs, rfl⟩
    have hloop := blendLoop_none styles (p0 :: rest) hnone none
    simp only [getVoice, hb, hloop]

/-- Witness for C10: a cache holding only `af_sarah`; the non-blend lookup
of `af_nova` returns the raw string, and a blend listing only the uncached
voice `a` returns `None`. -/
theorem C10_get_voice_witness :
    getVoice [("af_sarah", [1])] { voice := "af_nova" } = .rawName "af_nova" ∧
    getVoice [("af_sarah", [1])] { voice := "x", blend := some [("a", 1/2)] } =
      .noneV :=
  ⟨(C10_get_voice [("af_sarah", [1])] { voice := "af_nova" }).1 rfl (by decide),
   (C10_get_voice [("af_sarah", [1])] { voice := "x", blend := some [("a", 1/2)] }).2
     [("a", 1/2)] rfl (by decide) (by decide)⟩
